import Mathlib

/-!
Verification of the content-resolution pipeline of an Instagram media
downloader service (single source file `main.py`).

Strings from the Python source are modelled as `List Char`; Python's
fallible functions (those that `raise`) are modelled with `Option`/`Except`;
`re.findall`/`re.search` over the concrete pattern shapes used by the source
are modelled by explicit left-to-right scanners; randomized choices
(`random.choice`, `random.uniform`) are modelled by explicit choice
parameters, and randomized sleeps by a trace of the `(lo, hi)` interval each
`time.sleep(random.uniform(lo, hi))` call draws from.
-/

/-- Model of Python's substring test `pat in s` (`str.__contains__`):
scan every position for `pat` as a prefix. -/
def containsSub (pat : List Char) : List Char → Bool
  | [] => pat.isEmpty
  | c :: rest => pat.isPrefixOf (c :: rest) || containsSub pat rest

/-- The character class `[A-Za-z0-9_-]` of the shortcode regexes in
`extract_shortcode_from_url` (main.py lines 76-81). -/
def tokenCharB (c : Char) : Bool :=
  c.isAlphanum || c = '_' || c = '-'

/-- Model of `re.search(lit ++ "([A-Za-z0-9_-]+)", s)` for a literal `lit`:
find the leftmost position where `lit` occurs followed by at least one
token character, and return the maximal token-character run after it
(the capture group). `none` models the regex not matching. -/
def searchPat (lit : List Char) : List Char → Option (List Char)
  | [] => none
  | c :: rest =>
    if lit.isPrefixOf (c :: rest) then
      let tok := ((c :: rest).drop lit.length).takeWhile tokenCharB
      if tok.isEmpty then searchPat lit rest else some tok
    else searchPat lit rest

/-- The ordered shortcode pattern literals of `extract_shortcode_from_url`
(main.py lines 76-81): `/p/(id)`, `/reel/(id)`, `/reels/(id)`, `/tv/(id)`. -/
def shortcode_pats : List (List Char) :=
  ["/p/".toList, "/reel/".toList, "/reels/".toList, "/tv/".toList]

/-- First pattern of the ordered list that matches anywhere in the URL
(main.py lines 83-86: `for pattern in patterns: ... if match: return`). -/
def firstPatMatch (url : List Char) : List (List Char) → Option (List Char)
  | [] => none
  | p :: ps =>
    match searchPat p url with
    | some t => some t
    | none => firstPatMatch url ps

/-- `extract_shortcode_from_url` (main.py lines 74-88). `none` models the
`ValueError` raised when no pattern matches. -/
def extract_shortcode_from_url (url : List Char) : Option (List Char) :=
  firstPatMatch url shortcode_pats

/-- Model of Python `str.replace(pat, repl)` (left-to-right, non-overlapping),
with explicit fuel for structural recursion; `replaceSub` supplies fuel
`s.length`, which is enough because at least one input character is consumed
per step. -/
def replaceSubAux (pat repl : List Char) : Nat → List Char → List Char
  | _, [] => []
  | 0, s => s
  | fuel + 1, c :: rest =>
    if pat.isPrefixOf (c :: rest) && !pat.isEmpty then
      repl ++ replaceSubAux pat repl fuel (rest.drop (pat.length - 1))
    else
      c :: replaceSubAux pat repl fuel rest

/-- Python `s.replace(pat, repl)`. -/
def replaceSub (pat repl s : List Char) : List Char :=
  replaceSubAux pat repl s.length s

/-- One media-URL regex of `extract_instagram_data` (main.py lines 192-220).
Every pattern there has the shape: literal `lit`, then a capture of
characters other than `stop` (at least one, and containing `needle` when
`needle` is nonempty, as in `"src":"([^"]*\.mp4[^"]*)"`), then the literal
`close` (`"` for the quote-delimited patterns, `&quot;` for the
HTML-escaped ones). -/
structure PatSpec where
  lit : List Char
  stop : Char
  close : List Char
  needle : List Char

/-- Model of `re.findall` for a `PatSpec` pattern: scan left to right; on a
match record the capture and continue after the whole match (non-overlapping
matches, as `re.findall` produces); otherwise advance one character. Fuel is
supplied as `s.length` by `findAllPat`. -/
def findAllPatAux (p : PatSpec) : Nat → List Char → List (List Char)
  | _, [] => []
  | 0, _ => []
  | fuel + 1, c :: rest =>
    let s := c :: rest
    if p.lit.isPrefixOf s then
      let run := (s.drop p.lit.length).takeWhile (fun d => decide (d ≠ p.stop))
      if 0 < run.length
          && p.close.isPrefixOf ((s.drop p.lit.length).drop run.length)
          && (p.needle.isEmpty || containsSub p.needle run) then
        run :: findAllPatAux p fuel (s.drop (p.lit.length + run.length + p.close.length))
      else
        findAllPatAux p fuel rest
    else
      findAllPatAux p fuel rest

/-- `re.findall(pattern, body)` for one pattern of the extractor. -/
def findAllPat (p : PatSpec) (s : List Char) : List (List Char) :=
  findAllPatAux p s.length s

/-- A quote-delimited pattern `lit ++ "([^\x22]+)" ++ "\x22"`. -/
def quotePat (lit : String) : PatSpec :=
  ⟨lit.toList, '"', "\"".toList, []⟩

/-- A quote-delimited pattern whose capture must contain `needle`,
as in `"src":"([^\x22]*\.mp4[^\x22]*)"`. -/
def quoteNeedlePat (lit needle : String) : PatSpec :=
  ⟨lit.toList, '"', "\"".toList, needle.toList⟩

/-- An HTML-escaped pattern `lit ++ "([^&]+)&quot;"`. -/
def ampPat (lit : String) : PatSpec :=
  ⟨lit.toList, '&', "&quot;".toList, []⟩

/-- `patterns['video_url']` (main.py lines 193-202), in source order. -/
def video_url_patterns : List PatSpec :=
  [ quotePat "\"video_url\":\"",
    quotePat "\"videoUrl\":\"",
    quotePat "video_url\":\"",
    quoteNeedlePat "\"src\":\"" ".mp4",
    quotePat "\"playback_url\":\"",
    quotePat "\"video_dash_manifest\":\"",
    ampPat "videoUrl&quot;:&quot;",
    quotePat "\"video_versions\":[\x7b\"url\":\"" ]

/-- `patterns['display_url']` (main.py lines 203-212), in source order. -/
def display_url_patterns : List PatSpec :=
  [ quotePat "\"display_url\":\"",
    quotePat "\"displayUrl\":\"",
    quotePat "display_url\":\"",
    quoteNeedlePat "\"src\":\"" ".jpg",
    quoteNeedlePat "\"src\":\"" ".jpeg",
    quotePat "\"image_versions2\":\x7b\"candidates\":[\x7b\"url\":\"",
    ampPat "displayUrl&quot;:&quot;",
    quotePat "\"display_resources\":[\x7b\"src\":\"" ]

/-- `patterns['profile_pic']` (main.py lines 213-219), in source order. -/
def profile_pic_patterns : List PatSpec :=
  [ quotePat "\"profile_pic_url_hd\":\"",
    quotePat "\"profilePicUrlHd\":\"",
    quotePat "profile_pic_url_hd\":\"",
    quotePat "\"hd_profile_pic_url_info\":\x7b\"url\":\"",
    quotePat "\"hd_profile_pic_versions\":[\x7b\"url\":\"" ]

/-- `for pattern in patterns[...]: matches = re.findall(...); urls.extend(matches)`
(main.py lines 227-239): concatenate the matches of every pattern in order. -/
def runFamily (pats : List PatSpec) (body : List Char) : List (List Char) :=
  pats.foldl (fun acc p => acc ++ findAllPat p body) []

/-- The unescaping inside `clean_urls` (main.py line 245):
`url.replace('\\u0026', '&').replace('\\/', '/').replace('\\u003d', '=')`. -/
def clean_one_url (u : List Char) : List Char :=
  replaceSub "\\u003d".toList "=".toList
    (replaceSub "\\/".toList "/".toList
      (replaceSub "\\u0026".toList "&".toList u))

/-- The accumulator loop of `clean_urls` (main.py lines 242-248): keep a
cleaned URL only if it is new and mentions one of the recognized media
hosts. -/
def cleanLoop : List (List Char) → List (List Char) → List (List Char)
  | cleaned, [] => cleaned
  | cleaned, u :: rest =>
    let clean_url := clean_one_url u
    if clean_url ∉ cleaned
        ∧ (containsSub "instagram".toList clean_url = true
            ∨ containsSub "fbcdn".toList clean_url = true) then
      cleanLoop (cleaned ++ [clean_url]) rest
    else
      cleanLoop cleaned rest

/-- `clean_urls` (main.py lines 242-248). -/
def clean_urls (urls : List (List Char)) : List (List Char) :=
  cleanLoop [] urls

/-- The duplicate-removing loop of `extract_instagram_data`
(main.py lines 290-293): `if url not in unique_urls: unique_urls.append(url)`. -/
def dedupLoop : List (List Char) → List (List Char) → List (List Char)
  | acc, [] => acc
  | acc, u :: rest =>
    if u ∈ acc then dedupLoop acc rest else dedupLoop (acc ++ [u]) rest

/-- `unique_urls[:10]` after the dedup loop (main.py lines 289-295). -/
def select_media (media_urls : List (List Char)) : List (List Char) :=
  (dedupLoop [] media_urls).take 10

/-- The content-type / media-list selection chain of `extract_instagram_data`
(main.py lines 274-287). -/
def content_selection (url : List Char)
    (video_urls image_urls profile_urls : List (List Char)) :
    String × List (List Char) :=
  if containsSub "/reel/".toList url || containsSub "/reels/".toList url then
    ("reel", if video_urls.isEmpty then image_urls else video_urls)
  else if containsSub "/p/".toList url then
    ("post", image_urls ++ video_urls)
  else if containsSub "/stories/".toList url then
    ("story", video_urls ++ image_urls)
  else
    ("profile", profile_urls)

/-- The record returned by `extract_instagram_data`. -/
structure ExtractResult where
  type : String
  media_urls : List (List Char)
  success : Bool
deriving DecidableEq

/-- `extract_instagram_data` (main.py lines 185-307), the happy path of its
`try` block: pattern families → `clean_urls` → kind-based selection → dedup
→ cap at 10 → `success = len(media_urls) > 0`. -/
def extract_instagram_data (html_content : List Char) (url : List Char) :
    ExtractResult :=
  let video_urls := clean_urls (runFamily video_url_patterns html_content)
  let image_urls := clean_urls (runFamily display_url_patterns html_content)
  let profile_urls := clean_urls (runFamily profile_pic_patterns html_content)
  let tm := content_selection url video_urls image_urls profile_urls
  let media_urls := select_media tm.2
  ⟨tm.1, media_urls, decide (0 < media_urls.length)⟩

/-- The `except` branch of `extract_instagram_data` (main.py lines 305-307):
any internal exception is mapped to this fixed record. -/
def extract_exception_result : ExtractResult :=
  ⟨"unknown", [], false⟩

/-- The outermost behavior of `extract_instagram_data`: the `try` body when
it succeeds, the fixed fallback record when it raised. -/
def extract_instagram_data_guarded (r : Except String ExtractResult) :
    ExtractResult :=
  match r with
  | .ok v => v
  | .error _ => extract_exception_result

/-- The content-kind decision of `download_instagram_content`
(main.py lines 367, 378, 405, 409): the post-family branch computes
`'reel' if '/reel/' in url else 'post'`, `/stories/` goes to the story
branch, and everything else goes to the profile branch. -/
def download_branch_type (url : List Char) : String :=
  if containsSub "/p/".toList url || containsSub "/reel/".toList url
      || containsSub "/tv/".toList url then
    (if containsSub "/reel/".toList url then "reel" else "post")
  else if containsSub "/stories/".toList url then "story"
  else "profile"

/-- The JSON object returned by `download_instagram_content` /
`fallback_extraction` on success. -/
structure ApiResult where
  success : Bool
  type : String
  media_urls : List (List Char)
  download_count : Nat
  message : String
deriving DecidableEq

/-- The success message `f"Found {n} media files ({label})"`
(main.py lines 393, 463). -/
def found_message (n : Nat) (label : String) : String :=
  "Found " ++ toString n ++ " media files (" ++ label ++ ")"

/-- The ordered fallback strategy list of `fallback_extraction`
(main.py lines 445-449), each paired with the dispatch index used to query
the abstract fetch oracle: 0 = standard-header fetch, 1 = mobile-header
fetch, 2 = embed-form fetch. -/
def fallback_methods : List (String × Nat) :=
  [("Standard request", 0), ("Mobile user agent", 1), ("Embed request", 2)]

/-- The loop of `fallback_extraction` (main.py lines 451-469): try each
strategy in order; a fetch error (`except`) moves on to the next strategy;
a fetched body whose extraction succeeds returns immediately; extraction
failure also moves on. Besides the outcome (`.error 404` models the final
`HTTPException(404)`), the second component records the dispatch indices
actually invoked, in order. -/
def tryMethods (url : List Char) (fetch : Nat → Except Unit (List Char)) :
    List (String × Nat) → Except Nat ApiResult × List Nat
  | [] => (.error 404, [])
  | (name, idx) :: rest =>
    match fetch idx with
    | .error _ =>
      let r := tryMethods url fetch rest
      (r.1, idx :: r.2)
    | .ok body =>
      let media_data := extract_instagram_data body url
      if media_data.success then
        (.ok ⟨true, media_data.type, media_data.media_urls,
              media_data.media_urls.length,
              found_message media_data.media_urls.length name⟩, [idx])
      else
        let r := tryMethods url fetch rest
        (r.1, idx :: r.2)

/-- `fallback_extraction` (main.py lines 439-475). -/
def fallback_extraction (url : List Char)
    (fetch : Nat → Except Unit (List Char)) :
    Except Nat ApiResult × List Nat :=
  tryMethods url fetch fallback_methods

/-- The typed content object the primary lookup (`instaloader.Post`)
exposes: is-video flag, direct video URL, display URL, and — in the data
model, though unused by the code — the ordered sidecar children of a
multi-item post. -/
structure SidecarChild where
  is_video : Bool
  media_url : List Char
deriving DecidableEq

structure PostObj where
  is_video : Bool
  video_url : Option (List Char)
  url : Option (List Char)
  children : List SidecarChild
deriving DecidableEq

/-- The media collection of the primary strategy (main.py lines 377-384):
`if post.is_video and post.video_url: append(post.video_url)
 elif post.url: append(post.url)` — a single URL, at most. -/
def collectPrimaryMedia (post : PostObj) : List (List Char) :=
  match post.is_video, post.video_url with
  | true, some v => [v]
  | _, _ =>
    match post.url with
    | some u => [u]
    | none => []

/-- The collection rule as the specification words it ("for a multi-item
post, enumerate all child items and collect each one's direct URL,
preserving child order"): one URL per sidecar child. Stated from the spec's
words only, for comparison with `collectPrimaryMedia`. -/
def specCollectChildren (post : PostObj) : List (List Char) :=
  post.children.map (fun c => c.media_url)

/-- The distinguishable failure conditions of the primary lookup service;
`privateContent` models instaloader's private/deleted/inaccessible errors.
The source catches them all with one `except Exception` (main.py line 398). -/
inductive PrimaryError where
  | privateContent
  | notFound
  | connectionError
  | otherError
deriving DecidableEq

/-- The post-family branch of `download_instagram_content`
(main.py lines 367-403): primary lookup first; when it yields at least one
URL return immediately (strategy label "Instaloader"); when it yields none
or raises any exception, run `fallback_extraction`. The second component
is the list of fallback dispatch indices actually invoked. -/
def download_instagram_content_post (url : List Char)
    (primary : Except PrimaryError PostObj)
    (fetch : Nat → Except Unit (List Char)) :
    Except Nat ApiResult × List Nat :=
  match primary with
  | .ok post =>
    let media_urls := collectPrimaryMedia post
    let content_type := if containsSub "/reel/".toList url then "reel" else "post"
    if media_urls.isEmpty then
      fallback_extraction url fetch
    else
      (.ok ⟨true, content_type, media_urls, media_urls.length,
            found_message media_urls.length "Instaloader"⟩, [])
  | .error _ => fallback_extraction url fetch

/-- `USER_AGENTS` (main.py lines 33-42). -/
def USER_AGENTS : List String :=
  [ "Mozilla/5.0 (Windows NT 10.0; Win64; x64) AppleWebKit/537.36 (KHTML, like Gecko) Chrome/120.0.0.0 Safari/537.36",
    "Mozilla/5.0 (Macintosh; Intel Mac OS X 10_15_7) AppleWebKit/537.36 (KHTML, like Gecko) Chrome/120.0.0.0 Safari/537.36",
    "Mozilla/5.0 (X11; Linux x86_64) AppleWebKit/537.36 (KHTML, like Gecko) Chrome/120.0.0.0 Safari/537.36",
    "Mozilla/5.0 (Windows NT 10.0; Win64; x64) AppleWebKit/537.36 (KHTML, like Gecko) Chrome/119.0.0.0 Safari/537.36",
    "Mozilla/5.0 (Macintosh; Intel Mac OS X 10_15_7) AppleWebKit/605.1.15 (KHTML, like Gecko) Version/17.1 Safari/605.1.15",
    "Mozilla/5.0 (Windows NT 10.0; Win64; x64; rv:120.0) Gecko/20100101 Firefox/120.0",
    "Mozilla/5.0 (Macintosh; Intel Mac OS X 10.15; rv:120.0) Gecko/20100101 Firefox/120.0",
    "Mozilla/5.0 (X11; Linux x86_64; rv:120.0) Gecko/20100101 Firefox/120.0" ]

/-- The header dictionary built by `get_headers` (main.py lines 116-130):
only the User-Agent varies (a `random.choice` over `USER_AGENTS`, modelled
by the explicit index `choice`); every other field is constant. -/
structure Headers where
  userAgent : String
  accept : String
  acceptLanguage : String
  acceptEncoding : String
  dnt : String
  connection : String
  upgradeInsecureRequests : String
  secFetchDest : String
  secFetchMode : String
  secFetchSite : String
  cacheControl : String
deriving DecidableEq

/-- `get_headers` (main.py lines 116-130) with the `random.choice` made an
explicit parameter. -/
def get_headers (choice : Fin USER_AGENTS.length) : Headers :=
  ⟨USER_AGENTS.get choice,
   "text/html,application/xhtml+xml,application/xml;q=0.9,image/webp,*/*;q=0.8",
   "en-US,en;q=0.9",
   "gzip, deflate, br",
   "1",
   "keep-alive",
   "1",
   "document",
   "navigate",
   "none",
   "max-age=0"⟩

/-- The header set used on a given attempt of `make_request_with_retry`
(main.py line 136: `headers = get_headers()` at the top of each loop
iteration), with the per-attempt random draws made an explicit function. -/
def attempt_headers (randoms : Nat → Fin USER_AGENTS.length) (attempt : Nat) :
    Headers :=
  get_headers (randoms attempt)

/-- Outcome of one outbound `requests.get`: an HTTP status with a body, or
a raised `requests.exceptions.RequestException`. -/
inductive HttpOutcome where
  | status : Nat → List Char → HttpOutcome
  | netError : HttpOutcome
deriving DecidableEq

/-- Observable behavior of one dispatcher call: the result (`.error 503`
models the final `HTTPException(503)`), the trace of randomized sleep
intervals — one `(lo, hi)` entry per `time.sleep(random.uniform(lo, hi))`
executed, in order — and the number of outbound requests performed. -/
structure RetryResult where
  result : Except Nat (List Char)
  sleeps : List (Nat × Nat)
  dispatches : Nat

/-- The retry loop of `make_request_with_retry` (main.py lines 132-164),
structurally recursive on the number of remaining attempts. Per iteration:
a pre-attempt `sleep(uniform(2, 5))` when `attempt > 0`; then the request;
200 returns, 429 adds `sleep(uniform(10, 20))`, any other status just
retries, and a network error adds `sleep(uniform(3, 7))` unless this was
the final attempt. -/
def retryAux (responses : Nat → HttpOutcome) (max_retries : Nat) :
    Nat → Nat → List (Nat × Nat) → Nat → RetryResult
  | 0, _, sleeps, dispatches => ⟨.error 503, sleeps, dispatches⟩
  | remaining + 1, attempt, sleeps, dispatches =>
    let sleeps := if 0 < attempt then sleeps ++ [(2, 5)] else sleeps
    match responses attempt with
    | .status code body =>
      if code = 200 then
        ⟨.ok body, sleeps, dispatches + 1⟩
      else if code = 429 then
        retryAux responses max_retries remaining (attempt + 1)
          (sleeps ++ [(10, 20)]) (dispatches + 1)
      else
        retryAux responses max_retries remaining (attempt + 1)
          sleeps (dispatches + 1)
    | .netError =>
      retryAux responses max_retries remaining (attempt + 1)
        (if attempt < max_retries - 1 then sleeps ++ [(3, 7)] else sleeps)
        (dispatches + 1)

/-- `make_request_with_retry` (main.py lines 132-164), with the sequence of
outbound-request outcomes supplied by the oracle `responses`. -/
def make_request_with_retry (responses : Nat → HttpOutcome)
    (max_retries : Nat) : RetryResult :=
  retryAux responses max_retries max_retries 0 [] 0

/-- `make_mobile_request` (main.py lines 477-493): a single request with a
fixed mobile header set; any non-200 status raises. Returns the outcome and
the number of outbound requests (always exactly one). -/
def make_mobile_request (responses : Nat → HttpOutcome) :
    Except String (List Char) × Nat :=
  match responses 0 with
  | .status code body =>
    if code = 200 then (.ok body, 1)
    else (.error ("Mobile request failed: " ++ toString code), 1)
  | .netError => (.error "RequestException", 1)

/-- Python `url.rstrip('/')`. -/
def rstripSlash (url : List Char) : List Char :=
  (url.reverse.dropWhile (fun c => decide (c = '/'))).reverse

/-- The embed-URL rewrite of `make_embed_request` (main.py lines 497-503):
`/p/` posts keep their path, `/reel/` is substituted by `/p/`, both get
`/embed/` appended after stripping trailing slashes; any other URL raises
before any request is made. -/
def embed_url_of (url : List Char) : Except String (List Char) :=
  if containsSub "/p/".toList url then
    .ok (rstripSlash url ++ "/embed/".toList)
  else if containsSub "/reel/".toList url then
    .ok (rstripSlash (replaceSub "/reel/".toList "/p/".toList url) ++ "/embed/".toList)
  else
    .error "Cannot create embed URL for this type"

/-- `make_embed_request` (main.py lines 495-510): rewrite the URL to its
embed form (raising for unsupported kinds, with zero requests performed),
then a single request; non-200 raises. -/
def make_embed_request (responses : Nat → HttpOutcome) (url : List Char) :
    Except String (List Char) × Nat :=
  match embed_url_of url with
  | .error e => (.error e, 0)
  | .ok _ =>
    match responses 0 with
    | .status code body =>
      if code = 200 then (.ok body, 1)
      else (.error ("Embed request failed: " ++ toString code), 1)
    | .netError => (.error "RequestException", 1)

/-- Modelled from the spec: `src/main.py` contains no rate limiter, so the
process-wide sliding-window counter is modelled from the specification's
words — "a sliding 60-second window capped at a fixed request budget" that
"must be consulted before every outbound dispatch". -/
def rate_limit_window : Nat := 60

/-- Modelled from the spec: prune the timestamps that fell out of the
sliding 60-second window ending at `now`. -/
def prune_window (now : Nat) (st : List Nat) : List Nat :=
  st.filter (fun t => decide (now < t + rate_limit_window))

/-- Modelled from the spec: consult the window before a dispatch at time
`now`; accept (recording the timestamp) only while the pruned window holds
fewer than `budget` entries. -/
def rate_limit_check (budget : Nat) (st : List Nat) (now : Nat) :
    Bool × List Nat :=
  let pruned := prune_window now st
  if pruned.length < budget then (true, pruned ++ [now])
  else (false, pruned)

/-- Modelled from the spec: a sequence of resolution calls at the given
times, each consulting the rate limiter before dispatching. Per call the
outcome is `.ok ()` with 1 outbound dispatch when accepted, or the
`RateLimited` rejection with 0 outbound dispatches. -/
def guarded_calls (budget : Nat) :
    List Nat → List Nat → List (Except String Unit × Nat)
  | _, [] => []
  | st, t :: rest =>
    let c := rate_limit_check budget st t
    (if c.1 then (Except.ok (), 1) else (Except.error "RateLimited", 0))
      :: guarded_calls budget c.2 rest

/-! ### Helper lemmas about the dedup loop -/

theorem dedupLoop_acc_extend (l : List (List Char)) :
    ∀ acc, ∃ t, dedupLoop acc l = acc ++ t := by
  induction l with
  | nil => exact fun acc => ⟨[], by simp [dedupLoop]⟩
  | cons u rest ih =>
    intro acc
    by_cases h : u ∈ acc
    · obtain ⟨t, ht⟩ := ih acc
      exact ⟨t, by simp [dedupLoop, h, ht]⟩
    · obtain ⟨t, ht⟩ := ih (acc ++ [u])
      exact ⟨u :: t, by simp [dedupLoop, h, ht]⟩

theorem mem_dedupLoop (l : List (List Char)) :
    ∀ acc x, x ∈ dedupLoop acc l ↔ x ∈ acc ∨ x ∈ l := by
  induction l with
  | nil => simp [dedupLoop]
  | cons u rest ih =>
    intro acc x
    by_cases h : u ∈ acc
    · rw [dedupLoop, if_pos h, ih]
      constructor
      · rintro (hx | hx)
        · exact Or.inl hx
        · exact Or.inr (List.mem_cons_of_mem _ hx)
      · rintro (hx | hx)
        · exact Or.inl hx
        · rcases List.mem_cons.mp hx with rfl | hx
          · exact Or.inl h
          · exact Or.inr hx
    · rw [dedupLoop, if_neg h, ih]
      simp only [List.mem_append, List.mem_singleton, List.mem_cons]
      tauto

theorem nodup_dedupLoop (l : List (List Char)) :
    ∀ acc, acc.Nodup → (dedupLoop acc l).Nodup := by
  induction l with
  | nil => intro acc h; simpa [dedupLoop] using h
  | cons u rest ih =>
    intro acc hacc
    by_cases h : u ∈ acc
    · rw [dedupLoop, if_pos h]; exact ih acc hacc
    · rw [dedupLoop, if_neg h]
      refine ih (acc ++ [u]) ?_
      simp [List.nodup_append, hacc, h]

theorem dedupLoop_eq_of_nodup (l : List (List Char)) :
    ∀ acc, (∀ x ∈ l, x ∉ acc) → l.Nodup → dedupLoop acc l = acc ++ l := by
  induction l with
  | nil => intro acc _ _; simp [dedupLoop]
  | cons u rest ih =>
    intro acc hdis hnd
    have hu : u ∉ acc := hdis u (List.mem_cons_self u rest)
    rw [dedupLoop, if_neg hu, ih (acc ++ [u])]
    · simp
    · intro x hx
      simp only [List.mem_append, List.mem_singleton]
      push_neg
      refine ⟨hdis x (List.mem_cons_of_mem _ hx), ?_⟩
      intro hxu
      exact (List.nodup_cons.mp hnd).1 (hxu ▸ hx)
    · exact (List.nodup_cons.mp hnd).2

theorem dedupLoop_append_split (l₁ l₂ : List (List Char)) :
    ∀ acc, dedupLoop acc (l₁ ++ l₂) = dedupLoop (dedupLoop acc l₁) l₂ := by
  induction l₁ with
  | nil => intro acc; rfl
  | cons u rest ih =>
    intro acc
    by_cases h : u ∈ acc <;> simp [dedupLoop, h, ih]

theorem dedupLoop_sublist (l : List (List Char)) :
    ∀ acc, List.Sublist (dedupLoop acc l) (acc ++ l) := by
  induction l with
  | nil => intro acc; simp [dedupLoop]
  | cons u rest ih =>
    intro acc
    by_cases h : u ∈ acc
    · rw [dedupLoop, if_pos h]
      exact (ih acc).trans ((List.sublist_cons_self u rest).append_left acc)
    · rw [dedupLoop, if_neg h]
      have := ih (acc ++ [u])
      simpa using this

theorem count_one_of_nodup_mem (l : List (List Char)) (u : List Char)
    (hnd : l.Nodup) (hu : u ∈ l) : l.count u = 1 := by
  induction l with
  | nil => cases hu
  | cons v rest ih =>
    rcases List.mem_cons.mp hu with rfl | hmem
    · rw [List.count_cons_self]
      have h0 : rest.count u = 0 :=
        List.count_eq_zero.mpr (List.nodup_cons.mp hnd).1
      omega
    · have hne : u ≠ v := by
        intro h
        exact (List.nodup_cons.mp hnd).1 (by rw [← h]; exact hmem)
      rw [List.count_cons_of_ne hne]
      exact ih (List.nodup_cons.mp hnd).2 hmem

/-- Claim C5: for every extracted candidate list, the selected `media_urls`
sequence is deduplicated preserving first-seen order and capped at 10
entries: the dedup loop's output has each discovered URL exactly once, is a
subsequence of the discovery order, places each URL right after the dedup of
the discovery prefix that precedes its first occurrence, and given 15
distinct candidates the selected sequence is exactly the first 10 in
discovery order. -/
theorem C5_dedup_first_seen_and_cap (l : List (List Char)) :
    (l.Nodup → l.length = 15 →
      select_media l = l.take 10 ∧ (select_media l).length = 10)
    ∧ (select_media l).length ≤ 10
    ∧ (∀ u ∈ l, (dedupLoop [] l).count u = 1)
    ∧ List.Sublist (dedupLoop [] l) l
    ∧ (∀ pre u suf, u ∉ pre → l = pre ++ u :: suf →
        ∃ t, dedupLoop [] l = dedupLoop [] pre ++ u :: t) := by
  refine ⟨?_, ?_, ?_, ?_, ?_⟩
  · intro hnd hlen
    have hded : dedupLoop [] l = l := by
      simpa using dedupLoop_eq_of_nodup l [] (by simp) hnd
    constructor
    · rw [select_media, hded]
    · rw [select_media, hded, List.length_take, hlen]
      decide
  · rw [select_media]
    exact (List.length_take 10 _).le.trans (Nat.min_le_left _ _)
  · intro u hu
    exact count_one_of_nodup_mem _ u
      (nodup_dedupLoop l [] List.nodup_nil)
      ((mem_dedupLoop l [] u).mpr (Or.inr hu))
  · simpa using dedupLoop_sublist l []
  · rintro pre u suf hu rfl
    rw [dedupLoop_append_split pre (u :: suf) []]
    have hmem : u ∉ dedupLoop [] pre := by
      rw [mem_dedupLoop]
      simpa using hu
    rw [dedupLoop, if_neg hmem]
    obtain ⟨t, ht⟩ := dedupLoop_acc_extend suf (dedupLoop [] pre ++ [u])
    exact ⟨t, by simpa using ht⟩

/-- Witness for C5 at concrete inputs: a 15-element distinct candidate list
is capped to its first 10 entries, and in `["a", "b", "a"]` the repeated
URL survives exactly once, at its first-seen position. -/
theorem C5_dedup_first_seen_and_cap_witness :
    (select_media
        ["u0".toList, "u1".toList, "u2".toList, "u3".toList, "u4".toList,
         "u5".toList, "u6".toList, "u7".toList, "u8".toList, "u9".toList,
         "u10".toList, "u11".toList, "u12".toList, "u13".toList, "u14".toList] =
      ["u0".toList, "u1".toList, "u2".toList, "u3".toList, "u4".toList,
       "u5".toList, "u6".toList, "u7".toList, "u8".toList, "u9".toList])
    ∧ (dedupLoop [] ["a".toList, "b".toList, "a".toList]).count "a".toList = 1
    ∧ (∃ t, dedupLoop [] ["a".toList, "b".toList, "a".toList] =
        dedupLoop [] [] ++ "a".toList :: t) := by
  refine ⟨?_, ?_, ?_⟩
  · have h := (C5_dedup_first_seen_and_cap
      ["u0".toList, "u1".toList, "u2".toList, "u3".toList, "u4".toList,
       "u5".toList, "u6".toList, "u7".toList, "u8".toList, "u9".toList,
       "u10".toList, "u11".toList, "u12".toList, "u13".toList, "u14".toList]).1
      (by decide) (by decide)
    exact h.1.trans (by decide)
  · exact (C5_dedup_first_seen_and_cap
      ["a".toList, "b".toList, "a".toList]).2.2.1 "a".toList (by decide)
  · exact (C5_dedup_first_seen_and_cap
      ["a".toList, "b".toList, "a".toList]).2.2.2.2 [] "a".toList
      ["b".toList, "a".toList] (by decide) rfl

/-- Claim C10: the pattern extractor is total (the embedding returns a plain
record for every body and URL); success is exactly nonemptiness of
`media_urls`, so emptiness — not an exception — is the failure signal; when
no pattern produces a match the result carries an empty `media_urls` and
`success = false`; and an internal exception is mapped by the guard to the
record `⟨"unknown", [], false⟩`. -/
theorem C10_extractor_total_empty_failure (body url : List Char) :
    ((extract_instagram_data body url).success = true
      ↔ (extract_instagram_data body url).media_urls ≠ [])
    ∧ ((runFamily video_url_patterns body = []
          ∧ runFamily display_url_patterns body = []
          ∧ runFamily profile_pic_patterns body = []) →
        (extract_instagram_data body url).media_urls = []
          ∧ (extract_instagram_data body url).success = false)
    ∧ (∀ e, extract_instagram_data_guarded (Except.error e) =
        ⟨"unknown", [], false⟩) := by
  refine ⟨?_, ?_, fun e => rfl⟩
  · simp only [extract_instagram_data, decide_eq_true_eq]
    exact List.length_pos
  · rintro ⟨hv, hd, hp⟩
    have hm : (content_selection url [] [] []).2 = [] := by
      rw [content_selection]
      split
      · rfl
      · split
        · rfl
        · split <;> rfl
    have hmedia : (extract_instagram_data body url).media_urls = [] := by
      simp only [extract_instagram_data, hv, hd, hp]
      have hc : clean_urls [] = [] := rfl
      rw [hc, hm]
      rfl
    refine ⟨hmedia, ?_⟩
    simp only [extract_instagram_data] at hmedia ⊢
    rw [hmedia]
    rfl

/-- Witness for C10: on a body matching no pattern, the extractor returns an
empty `media_urls` with `success = false`, and the exception guard yields
the fixed `unknown` record. -/
theorem C10_extractor_total_empty_failure_witness :
    ((extract_instagram_data "hello world".toList
        "https://www.instagram.com/p/ABC/".toList).media_urls = []
      ∧ (extract_instagram_data "hello world".toList
          "https://www.instagram.com/p/ABC/".toList).success = false)
    ∧ extract_instagram_data_guarded (Except.error "boom") =
        ⟨"unknown", [], false⟩ :=
  ⟨(C10_extractor_total_empty_failure "hello world".toList
      "https://www.instagram.com/p/ABC/".toList).2.1
    ⟨by decide, by decide, by decide⟩,
   (C10_extractor_total_empty_failure [] []).2.2 "boom"⟩

/-- Counterexample to claim C2 as stated: the URL
`https://www.instagram.com/explore/tags/foo` matches none of the recognized
sub-paths (`/p/`, `/reel/`, `/reels/`, `/tv/`, `/stories/`) and is not a
bare `domain/<segment>` profile path, yet both classification sites in the
code assign it the kind `profile`, not the claimed default `post`. -/
theorem C2_counterexample_default_is_profile :
    download_branch_type "https://www.instagram.com/explore/tags/foo".toList
        = "profile"
    ∧ (extract_instagram_data []
        "https://www.instagram.com/explore/tags/foo".toList).type = "profile"
    ∧ ("profile" : String) ≠ "post" := by
  refine ⟨by decide, by decide, by decide⟩

/-- Claim C2 as amended: for every input URL not containing any recognized
sub-path (`/p/`, `/reel/`, `/reels/`, `/tv/`, `/stories/`), both the
extractor's classification and the download handler's branch selection
default the content kind to `profile` (not `post`). -/
theorem C2_amended_default_kind_profile (body url : List Char)
    (h1 : containsSub "/p/".toList url = false)
    (h2 : containsSub "/reel/".toList url = false)
    (h3 : containsSub "/reels/".toList url = false)
    (h4 : containsSub "/tv/".toList url = false)
    (h5 : containsSub "/stories/".toList url = false) :
    (extract_instagram_data body url).type = "profile"
    ∧ download_branch_type url = "profile" := by
  constructor
  · simp only [extract_instagram_data, content_selection, h1, h2, h3, h5]
    rfl
  · simp only [download_branch_type, h1, h2, h4, h5]
    decide

/-- Witness for the amended C2 at the counterexample URL. -/
theorem C2_amended_default_kind_profile_witness :
    (extract_instagram_data []
        "https://www.instagram.com/explore/tags/foo".toList).type = "profile"
    ∧ download_branch_type
        "https://www.instagram.com/explore/tags/foo".toList = "profile" :=
  C2_amended_default_kind_profile []
    "https://www.instagram.com/explore/tags/foo".toList
    (by decide) (by decide) (by decide) (by decide) (by decide)

/-- Claim C1: the orchestrator's fallback strategies are ordered
standard-header fetch, mobile-header fetch, embed-form fetch; when the
primary strategy errors (with any error) and the first fallback strategy's
extraction succeeds (yields at least one candidate), the orchestrator
returns the successful result tagged with the "Standard request" label,
with dispatch trace exactly `[0]` — the dispatcher is never invoked for
the mobile (1) or embed (2) strategies. -/
theorem C1_fallback_order_short_circuit (url : List Char)
    (fetch : Nat → Except Unit (List Char)) (body : List Char)
    (e : PrimaryError)
    (h0 : fetch 0 = Except.ok body)
    (h1 : (extract_instagram_data body url).success = true) :
    fallback_methods =
      [("Standard request", 0), ("Mobile user agent", 1), ("Embed request", 2)]
    ∧ download_instagram_content_post url (Except.error e) fetch =
      (Except.ok ⟨true, (extract_instagram_data body url).type,
          (extract_instagram_data body url).media_urls,
          (extract_instagram_data body url).media_urls.length,
          found_message (extract_instagram_data body url).media_urls.length
            "Standard request"⟩,
       [0]) := by
  refine ⟨rfl, ?_⟩
  show fallback_extraction url fetch = _
  rw [fallback_extraction, fallback_methods]
  simp only [tryMethods, h0, h1]
  rfl

/-- Witness for C1: primary lookup errors, the standard-header fetch
returns a body containing one `video_url` candidate, and the orchestrator
resolves with the "Standard request" tag having dispatched only strategy 0. -/
theorem C1_fallback_order_short_circuit_witness :
    (extract_instagram_data
        "\"video_url\":\"https:\\/\\/cdn.fbcdn.net\\/v.mp4\"".toList
        "https://www.instagram.com/reel/ABC123/".toList).success = true
    ∧ download_instagram_content_post
        "https://www.instagram.com/reel/ABC123/".toList
        (Except.error PrimaryError.otherError)
        (fun i => if i = 0 then
            Except.ok "\"video_url\":\"https:\\/\\/cdn.fbcdn.net\\/v.mp4\"".toList
          else Except.error ()) =
      (Except.ok ⟨true,
          (extract_instagram_data
            "\"video_url\":\"https:\\/\\/cdn.fbcdn.net\\/v.mp4\"".toList
            "https://www.instagram.com/reel/ABC123/".toList).type,
          (extract_instagram_data
            "\"video_url\":\"https:\\/\\/cdn.fbcdn.net\\/v.mp4\"".toList
            "https://www.instagram.com/reel/ABC123/".toList).media_urls,
          (extract_instagram_data
            "\"video_url\":\"https:\\/\\/cdn.fbcdn.net\\/v.mp4\"".toList
            "https://www.instagram.com/reel/ABC123/".toList).media_urls.length,
          found_message
            (extract_instagram_data
              "\"video_url\":\"https:\\/\\/cdn.fbcdn.net\\/v.mp4\"".toList
              "https://www.instagram.com/reel/ABC123/".toList).media_urls.length
            "Standard request"⟩,
       [0]) :=
  ⟨by decide,
   (C1_fallback_order_short_circuit
      "https://www.instagram.com/reel/ABC123/".toList
      (fun i => if i = 0 then
          Except.ok "\"video_url\":\"https:\\/\\/cdn.fbcdn.net\\/v.mp4\"".toList
        else Except.error ())
      "\"video_url\":\"https:\\/\\/cdn.fbcdn.net\\/v.mp4\"".toList
      PrimaryError.otherError rfl (by decide)).2⟩

/-- Counterexample to claim C4 as stated: when the primary lookup fails
with the condition indicating private/inaccessible content, the code does
attempt fallback (the standard-strategy dispatcher is invoked, trace
`[0] ≠ []`), and the outcome is byte-for-byte identical to the outcome for
an unrelated not-found failure — no distinct `PrivateOrUnavailable`
handling exists. -/
theorem C4_counterexample_private_triggers_fallback :
    (download_instagram_content_post "https://www.instagram.com/p/ABC/".toList
        (Except.error PrimaryError.privateContent)
        (fun i => if i = 0 then
            Except.ok "\"display_url\":\"https://instagram.com/a.jpg\"".toList
          else Except.error ())).2 = [0]
    ∧ ([0] : List Nat) ≠ []
    ∧ download_instagram_content_post "https://www.instagram.com/p/ABC/".toList
        (Except.error PrimaryError.privateContent)
        (fun i => if i = 0 then
            Except.ok "\"display_url\":\"https://instagram.com/a.jpg\"".toList
          else Except.error ()) =
      download_instagram_content_post "https://www.instagram.com/p/ABC/".toList
        (Except.error PrimaryError.notFound)
        (fun i => if i = 0 then
            Except.ok "\"display_url\":\"https://instagram.com/a.jpg\"".toList
          else Except.error ()) :=
  ⟨by decide, by decide, rfl⟩

/-- Claim C4 as amended: all primary-lookup failures — private, deleted,
not-found, transient, or otherwise — are handled uniformly: the error kind
is discarded and fallback extraction is always attempted, beginning with
the standard-header dispatch; no distinct `PrivateOrUnavailable` outcome
exists. -/
theorem C4_amended_uniform_fallback (url : List Char) (e : PrimaryError)
    (fetch : Nat → Except Unit (List Char)) :
    download_instagram_content_post url (Except.error e) fetch =
      fallback_extraction url fetch
    ∧ (download_instagram_content_post url (Except.error e) fetch).2.head? =
      some 0 := by
  refine ⟨rfl, ?_⟩
  show (fallback_extraction url fetch).2.head? = some 0
  rw [fallback_extraction, fallback_methods]
  cases h : fetch 0 with
  | error u => simp [tryMethods, h]
  | ok body =>
    by_cases hs : (extract_instagram_data body url).success = true <;>
      simp [tryMethods, h, hs]

/-- Counterexample to claim C8 as stated: for a two-child sidecar post the
primary strategy collects a single URL (the post's own display URL), while
one-URL-per-child — the spec's `specCollectChildren` — would collect two. -/
theorem C8_counterexample_single_url :
    collectPrimaryMedia
        ⟨false, none, some "https://cdn/img1.jpg".toList,
         [⟨false, "https://cdn/img1.jpg".toList⟩,
          ⟨false, "https://cdn/img2.jpg".toList⟩]⟩ =
      ["https://cdn/img1.jpg".toList]
    ∧ specCollectChildren
        ⟨false, none, some "https://cdn/img1.jpg".toList,
         [⟨false, "https://cdn/img1.jpg".toList⟩,
          ⟨false, "https://cdn/img2.jpg".toList⟩]⟩ =
      ["https://cdn/img1.jpg".toList, "https://cdn/img2.jpg".toList]
    ∧ (collectPrimaryMedia
        ⟨false, none, some "https://cdn/img1.jpg".toList,
         [⟨false, "https://cdn/img1.jpg".toList⟩,
          ⟨false, "https://cdn/img2.jpg".toList⟩]⟩).length ≠
      (specCollectChildren
        ⟨false, none, some "https://cdn/img1.jpg".toList,
         [⟨false, "https://cdn/img1.jpg".toList⟩,
          ⟨false, "https://cdn/img2.jpg".toList⟩]⟩).length := by
  refine ⟨rfl, rfl, by decide⟩

/-- Claim C8 as amended: the primary strategy does not enumerate sidecar
children; it collects at most one URL — the direct video URL when the post
is a video exposing one, else the display URL when present. -/
theorem C8_amended_primary_single_media (post : PostObj) :
    (collectPrimaryMedia post).length ≤ 1
    ∧ (∀ v, post.is_video = true → post.video_url = some v →
        collectPrimaryMedia post = [v])
    ∧ (∀ u, post.is_video = false → post.url = some u →
        collectPrimaryMedia post = [u]) := by
  refine ⟨?_, ?_, ?_⟩
  · rcases post with ⟨iv, vu, u, ch⟩
    rcases iv <;> rcases vu <;> rcases u <;> simp [collectPrimaryMedia]
  · rintro v hiv hvu
    rcases post with ⟨iv, vu, u, ch⟩
    subst hiv
    simp only at hvu
    subst hvu
    rfl
  · rintro u hiv hu
    rcases post with ⟨iv, vu, pu, ch⟩
    subst hiv
    simp only at hu
    subst hu
    rcases vu <;> rfl

/-- Witness for the amended C8: a video post with a direct video URL and an
image post with a display URL each yield exactly their single URL. -/
theorem C8_amended_primary_single_media_witness :
    collectPrimaryMedia ⟨true, some "v.mp4".toList, none, []⟩ =
      ["v.mp4".toList]
    ∧ collectPrimaryMedia ⟨false, none, some "i.jpg".toList, []⟩ =
      ["i.jpg".toList] :=
  ⟨(C8_amended_primary_single_media
      ⟨true, some "v.mp4".toList, none, []⟩).2.1 "v.mp4".toList rfl rfl,
   (C8_amended_primary_single_media
      ⟨false, none, some "i.jpg".toList, []⟩).2.2 "i.jpg".toList rfl rfl⟩

/-- Counterexample to claim C9 as stated: the header set for each attempt
is drawn by an independent `random.choice`, so the random source that picks
pool index 0 on two consecutive attempts is possible and produces the same
header set twice in a row even though the pool has more than one entry. -/
theorem C9_counterexample_repeat_headers :
    attempt_headers (fun _ => ⟨0, by decide⟩) 1 =
      attempt_headers (fun _ => ⟨0, by decide⟩) 0
    ∧ 1 < USER_AGENTS.length :=
  ⟨rfl, by decide⟩

/-- Claim C9 as amended: each attempt's header set is drawn from the fixed
pool by an independent random choice; consecutive attempts may receive the
same header set even though the pool size exceeds 1. -/
theorem C9_amended_independent_choice
    (r : Nat → Fin USER_AGENTS.length) (n : Nat) :
    (attempt_headers r n).userAgent ∈ USER_AGENTS
    ∧ (∃ s : Nat → Fin USER_AGENTS.length,
        attempt_headers s (n + 1) = attempt_headers s n)
    ∧ 1 < USER_AGENTS.length := by
  refine ⟨List.get_mem USER_AGENTS (r n).1 (r n).2, ⟨fun _ => r n, rfl⟩, by decide⟩

/-! ### Step lemmas for the retry loop -/

theorem retryAux_step_200 (r : Nat → HttpOutcome) (m remaining attempt : Nat)
    (sleeps : List (Nat × Nat)) (disp : Nat) (b : List Char)
    (hr : r attempt = HttpOutcome.status 200 b) :
    retryAux r m (remaining + 1) attempt sleeps disp =
      ⟨Except.ok b, if 0 < attempt then sleeps ++ [(2, 5)] else sleeps,
       disp + 1⟩ := by
  simp only [retryAux, hr]
  simp

theorem retryAux_step_429 (r : Nat → HttpOutcome) (m remaining attempt : Nat)
    (sleeps : List (Nat × Nat)) (disp : Nat) (b : List Char)
    (hr : r attempt = HttpOutcome.status 429 b) :
    retryAux r m (remaining + 1) attempt sleeps disp =
      retryAux r m remaining (attempt + 1)
        ((if 0 < attempt then sleeps ++ [(2, 5)] else sleeps) ++ [(10, 20)])
        (disp + 1) := by
  simp only [retryAux, hr]
  simp

theorem retryAux_step_fail (r : Nat → HttpOutcome) (m remaining attempt : Nat)
    (sleeps : List (Nat × Nat)) (disp : Nat) (c : Nat) (b : List Char)
    (hr : r attempt = HttpOutcome.status c b)
    (h200 : c ≠ 200) (h429 : c ≠ 429) :
    retryAux r m (remaining + 1) attempt sleeps disp =
      retryAux r m remaining (attempt + 1)
        (if 0 < attempt then sleeps ++ [(2, 5)] else sleeps) (disp + 1) := by
  simp only [retryAux, hr]
  simp [h200, h429]

theorem retryAux_step_net (r : Nat → HttpOutcome) (m remaining attempt : Nat)
    (sleeps : List (Nat × Nat)) (disp : Nat)
    (hr : r attempt = HttpOutcome.netError) :
    retryAux r m (remaining + 1) attempt sleeps disp =
      retryAux r m remaining (attempt + 1)
        (if attempt < m - 1 then
          (if 0 < attempt then sleeps ++ [(2, 5)] else sleeps) ++ [(3, 7)]
         else (if 0 < attempt then sleeps ++ [(2, 5)] else sleeps))
        (disp + 1) := by
  simp only [retryAux, hr]

theorem retryAux_sleeps_mem (r : Nat → HttpOutcome) (m : Nat) :
    ∀ (fuel attempt : Nat) (acc : List (Nat × Nat)) (disp : Nat),
    (∀ iv ∈ acc, (2 ≤ iv.1 ∧ iv.2 ≤ 7) ∨ iv = (10, 20)) →
    ∀ iv ∈ (retryAux r m fuel attempt acc disp).sleeps,
      (2 ≤ iv.1 ∧ iv.2 ≤ 7) ∨ iv = (10, 20) := by
  intro fuel
  induction fuel with
  | zero => intro attempt acc disp hacc iv hiv; exact hacc iv hiv
  | succ n ih =>
    intro attempt acc disp hacc iv hiv
    have hpre : ∀ jv ∈ (if 0 < attempt then acc ++ [(2, 5)] else acc),
        (2 ≤ jv.1 ∧ jv.2 ≤ 7) ∨ jv = (10, 20) := by
      intro jv hj
      split at hj
      · rcases List.mem_append.mp hj with hj | hj
        · exact hacc jv hj
        · left
          rcases List.mem_singleton.mp hj with rfl
          exact ⟨le_refl 2, by omega⟩
      · exact hacc jv hj
    simp only [retryAux] at hiv
    cases hr : r attempt with
    | status c b =>
      rw [hr] at hiv
      simp only at hiv
      split at hiv
      · exact hpre iv hiv
      · split at hiv
        · refine ih (attempt + 1) _ (disp + 1) ?_ iv hiv
          intro jv hj
          rcases List.mem_append.mp hj with hj | hj
          · exact hpre jv hj
          · right
            exact List.mem_singleton.mp hj
        · exact ih (attempt + 1) _ (disp + 1) hpre iv hiv
    | netError =>
      rw [hr] at hiv
      simp only at hiv
      split at hiv
      · refine ih (attempt + 1) _ (disp + 1) ?_ iv hiv
        intro jv hj
        rcases List.mem_append.mp hj with hj | hj
        · exact hpre jv hj
        · left
          rcases List.mem_singleton.mp hj with rfl
          exact ⟨by omega, le_refl 7⟩
      · exact ih (attempt + 1) _ (disp + 1) hpre iv hiv

/-- Counterexample to claim C6 as stated ("every fetch call, regardless of
variant, makes up to 3 attempts"): with a response sequence whose first
attempt fails with HTTP 500 and whose second attempt would succeed, the
mobile variant raises after exactly one outbound request, while the
standard variant's 3-attempt policy recovers on the second attempt. -/
theorem C6_counterexample_mobile_single_attempt :
    (make_mobile_request (fun n =>
        if n = 0 then HttpOutcome.status 500 []
        else HttpOutcome.status 200 "ok".toList)).2 = 1
    ∧ (make_mobile_request (fun n =>
        if n = 0 then HttpOutcome.status 500 []
        else HttpOutcome.status 200 "ok".toList)).1 =
      Except.error "Mobile request failed: 500"
    ∧ (make_request_with_retry (fun n =>
        if n = 0 then HttpOutcome.status 500 []
        else HttpOutcome.status 200 "ok".toList) 3).result =
      Except.ok "ok".toList
    ∧ (make_request_with_retry (fun n =>
        if n = 0 then HttpOutcome.status 500 []
        else HttpOutcome.status 200 "ok".toList) 3).dispatches = 2 :=
  ⟨rfl, rfl, rfl, rfl⟩

/-- Claim C6 as amended: only the standard variant retries, making up to 3
attempts: exhausting them on non-429 failures yields the 503 outcome after
3 dispatches with a pre-attempt sleep in [2, 5] before each attempt after
the first; HTTP 429 adds a sleep in [10, 20] before the next attempt; a
network error adds a sleep in [3, 7], skipped on the final attempt; every
sleep drawn lies in [2, 7] except the 429 backoff [10, 20]. The mobile
variant always performs exactly one request, and the embed variant at most
one. -/
theorem C6_amended_retry_policy :
    (∀ r : Nat → HttpOutcome,
      (∀ n, n < 3 → ∃ c b, r n = HttpOutcome.status c b ∧ c ≠ 200 ∧ c ≠ 429) →
      make_request_with_retry r 3 =
        ⟨Except.error 503, [(2, 5), (2, 5)], 3⟩)
    ∧ (∀ r : Nat → HttpOutcome, ∀ b,
      r 0 = HttpOutcome.status 429 [] → r 1 = HttpOutcome.status 200 b →
      make_request_with_retry r 3 = ⟨Except.ok b, [(10, 20), (2, 5)], 2⟩)
    ∧ (∀ r : Nat → HttpOutcome,
      r 0 = HttpOutcome.netError → r 1 = HttpOutcome.netError →
      r 2 = HttpOutcome.netError →
      make_request_with_retry r 3 =
        ⟨Except.error 503, [(3, 7), (2, 5), (3, 7), (2, 5)], 3⟩)
    ∧ (∀ r : Nat → HttpOutcome, (make_mobile_request r).2 = 1)
    ∧ (∀ (r : Nat → HttpOutcome) (url : List Char),
        (make_embed_request r url).2 ≤ 1)
    ∧ (∀ (r : Nat → HttpOutcome) iv,
        iv ∈ (make_request_with_retry r 3).sleeps →
        (2 ≤ iv.1 ∧ iv.2 ≤ 7) ∨ iv = (10, 20)) := by
  refine ⟨?_, ?_, ?_, ?_, ?_, ?_⟩
  · intro r h
    obtain ⟨c0, b0, h0, h0a, h0b⟩ := h 0 (by omega)
    obtain ⟨c1, b1, h1, h1a, h1b⟩ := h 1 (by omega)
    obtain ⟨c2, b2, h2, h2a, h2b⟩ := h 2 (by omega)
    rw [make_request_with_retry]
    show retryAux r 3 (2 + 1) 0 [] 0 = _
    rw [retryAux_step_fail r 3 2 0 [] 0 c0 b0 h0 h0a h0b]
    show retryAux r 3 (1 + 1) 1 [] 1 = _
    rw [retryAux_step_fail r 3 1 1 [] 1 c1 b1 h1 h1a h1b]
    show retryAux r 3 (0 + 1) 2 [(2, 5)] 2 = _
    rw [retryAux_step_fail r 3 0 2 [(2, 5)] 2 c2 b2 h2 h2a h2b]
    rfl
  · intro r b h0 h1
    rw [make_request_with_retry]
    show retryAux r 3 (2 + 1) 0 [] 0 = _
    rw [retryAux_step_429 r 3 2 0 [] 0 [] h0]
    show retryAux r 3 (1 + 1) 1 [(10, 20)] 1 = _
    rw [retryAux_step_200 r 3 1 1 [(10, 20)] 1 b h1]
    rfl
  · intro r h0 h1 h2
    rw [make_request_with_retry]
    show retryAux r 3 (2 + 1) 0 [] 0 = _
    rw [retryAux_step_net r 3 2 0 [] 0 h0]
    show retryAux r 3 (1 + 1) 1 [(3, 7)] 1 = _
    rw [retryAux_step_net r 3 1 1 [(3, 7)] 1 h1]
    show retryAux r 3 (0 + 1) 2 [(3, 7), (2, 5), (3, 7)] 2 = _
    rw [retryAux_step_net r 3 0 2 [(3, 7), (2, 5), (3, 7)] 2 h2]
    rfl
  · intro r
    rcases hr : r 0 with ⟨c, b⟩ | _
    · simp only [make_mobile_request, hr]
      split <;> rfl
    · simp [make_mobile_request, hr]
  · intro r url
    rw [make_embed_request]
    rcases he : embed_url_of url with e | eu
    · simp
    · rcases hr : r 0 with ⟨c, b⟩ | _
      · simp only [hr]
        split <;> simp
      · simp [hr]
  · intro r iv hiv
    exact retryAux_sleeps_mem r 3 3 0 [] 0 (by simp) iv hiv

/-- Witness for the amended C6: the three standard-variant scenarios at
concrete response sequences, the mobile variant's single dispatch, and the
embed variant's dispatch bound, via the amended theorem. -/
theorem C6_amended_retry_policy_witness :
    make_request_with_retry (fun _ => HttpOutcome.status 500 []) 3 =
      ⟨Except.error 503, [(2, 5), (2, 5)], 3⟩
    ∧ make_request_with_retry (fun n =>
        if n = 0 then HttpOutcome.status 429 []
        else HttpOutcome.status 200 "ok".toList) 3 =
      ⟨Except.ok "ok".toList, [(10, 20), (2, 5)], 2⟩
    ∧ make_request_with_retry (fun _ => HttpOutcome.netError) 3 =
      ⟨Except.error 503, [(3, 7), (2, 5), (3, 7), (2, 5)], 3⟩
    ∧ (make_mobile_request (fun _ => HttpOutcome.netError)).2 = 1
    ∧ (make_embed_request (fun _ => HttpOutcome.netError)
        "https://www.instagram.com/feed".toList).2 ≤ 1 :=
  ⟨C6_amended_retry_policy.1 (fun _ => HttpOutcome.status 500 [])
      (fun n _ => ⟨500, [], rfl, by omega, by omega⟩),
   C6_amended_retry_policy.2.1 (fun n =>
        if n = 0 then HttpOutcome.status 429 []
        else HttpOutcome.status 200 "ok".toList) "ok".toList rfl rfl,
   C6_amended_retry_policy.2.2.1 (fun _ => HttpOutcome.netError) rfl rfl rfl,
   C6_amended_retry_policy.2.2.2.1 (fun _ => HttpOutcome.netError),
   C6_amended_retry_policy.2.2.2.2.1 (fun _ => HttpOutcome.netError)
      "https://www.instagram.com/feed".toList⟩

/-- When every rate-limiter timestamp is still within the window of every
upcoming call time, pruning removes nothing and the k-th call is accepted
exactly while the window still has room. -/
theorem guarded_calls_all_in_window (budget : Nat) :
    ∀ (times st : List Nat),
    (∀ s ∈ st, ∀ t ∈ times, t < s + rate_limit_window) →
    (∀ a ∈ times, ∀ b ∈ times, a < b + rate_limit_window) →
    guarded_calls budget st times =
      (List.range times.length).map
        (fun k => if st.length + k < budget then (Except.ok (), 1)
                  else (Except.error "RateLimited", 0)) := by
  intro times
  induction times with
  | nil => intro st _ _; rfl
  | cons t rest ih =>
    intro st hst hpair
    have hprune : prune_window t st = st := by
      rw [prune_window, List.filter_eq_self]
      intro s hs
      simp only [decide_eq_true_eq]
      exact hst s hs t (List.mem_cons_self t rest)
    have hrest_pair : ∀ a ∈ rest, ∀ b ∈ rest, a < b + rate_limit_window :=
      fun a ha b hb =>
        hpair a (List.mem_cons_of_mem t ha) b (List.mem_cons_of_mem t hb)
    simp only [guarded_calls, rate_limit_check, hprune]
    rw [List.length_cons, List.range_succ_eq_map, List.map_cons, List.map_map]
    by_cases hlt : st.length < budget
    · rw [if_pos hlt]
      have hinv : ∀ s ∈ st ++ [t], ∀ u ∈ rest, u < s + rate_limit_window := by
        intro s hs u hu
        rcases List.mem_append.mp hs with hs | hs
        · exact hst s hs u (List.mem_cons_of_mem t hu)
        · rcases List.mem_singleton.mp hs with rfl
          exact hpair u (List.mem_cons_of_mem s hu) s (List.mem_cons_self s rest)
      rw [ih (st ++ [t]) hinv hrest_pair]
      simp only [if_pos (by omega : st.length + 0 < budget)]
      refine congrArg _ ?_
      refine List.map_congr_left ?_
      intro k _
      have h : (st ++ [t]).length + k = st.length + Nat.succ k := by
        simp only [List.length_append, List.length_singleton]
        omega
      rw [h]
      rfl
    · rw [if_neg hlt]
      rw [ih st (fun s hs u hu => hst s hs u (List.mem_cons_of_mem t hu))
          hrest_pair]
      simp only [if_neg (by omega : ¬ st.length + 0 < budget)]
      refine congrArg _ ?_
      refine List.map_congr_left ?_
      intro k _
      have h1 : ¬ st.length + k < budget := by omega
      have h2 : ¬ st.length + Nat.succ k < budget := by omega
      simp only [Function.comp_apply, h1, h2, if_false, ite_false]

/-- Claim C3 (spec-modelled: `src/main.py` contains no rate limiter, so the
sliding-window counter is modelled from the specification): for every
sequence of N+1 resolution calls all falling inside one 60-second window,
the first N calls are accepted and dispatch exactly once each, while the
(N+1)-th call is rejected with `RateLimited` and performs zero outbound
dispatches — the counter is consulted before, and instead of, the dispatch. -/
theorem C3_rate_limit_window_budget (N t0 : Nat) (times : List Nat)
    (hlen : times.length = N + 1)
    (hwin : ∀ t ∈ times, t0 ≤ t ∧ t < t0 + rate_limit_window) :
    guarded_calls N [] times =
      List.replicate N (Except.ok (), 1) ++ [(Except.error "RateLimited", 0)] := by
  have hpair : ∀ a ∈ times, ∀ b ∈ times, a < b + rate_limit_window := by
    intro a ha b hb
    have h1 := (hwin a ha).2
    have h2 := (hwin b hb).1
    omega
  rw [guarded_calls_all_in_window N times [] (by simp) hpair, hlen,
      List.range_succ, List.map_append]
  refine congrArg₂ _ ?_ ?_
  · have step1 : (List.range N).map
        (fun k => if List.length ([] : List Nat) + k < N then
            ((Except.ok () : Except String Unit), 1)
          else (Except.error "RateLimited", 0)) =
        (List.range N).map
          (fun _ => ((Except.ok () : Except String Unit), 1)) := by
      refine List.map_congr_left (fun k hk => ?_)
      have hkN := List.mem_range.mp hk
      have hc : List.length ([] : List Nat) + k < N := by
        simp only [List.length_nil]
        omega
      rw [if_pos hc]
    rw [step1, List.map_const', List.length_range]
  · have hc : ¬ List.length ([] : List Nat) + N < N := by
      simp only [List.length_nil]
      omega
    simp [hc]

/-- Witness for C3: with budget 2 and three calls at seconds 100, 130, 159
(all inside one 60-second window), the first two are accepted with one
dispatch each and the third is rejected with zero dispatches. -/
theorem C3_rate_limit_window_budget_witness :
    guarded_calls 2 [] [100, 130, 159] =
      List.replicate 2 (Except.ok (), 1) ++ [(Except.error "RateLimited", 0)] :=
  C3_rate_limit_window_budget 2 100 [100, 130, 159] rfl (by decide)

/-! ### Helper lemmas about the regex scanners and substring test -/

theorem isPrefixOf_nil_eq (l : List Char)
    (h : l.isPrefixOf ([] : List Char) = true) : l = [] := by
  cases l with
  | nil => rfl
  | cons a as => simp [List.isPrefixOf] at h

theorem isPrefixOf_append_self (l₁ l₂ : List Char) :
    l₁.isPrefixOf (l₁ ++ l₂) = true := by
  induction l₁ with
  | nil => simp [List.isPrefixOf]
  | cons a as ih => simp [List.isPrefixOf, ih]

theorem searchPat_head_some (lit tok : List Char) :
    ∀ s : List Char, lit.isPrefixOf s = true →
    (s.drop lit.length).takeWhile tokenCharB = tok → tok ≠ [] →
    searchPat lit s = some tok := by
  intro s hpre htk htok
  cases s with
  | nil =>
    exfalso
    have hlit : lit = [] := isPrefixOf_nil_eq lit hpre
    subst hlit
    simp only [List.length_nil, List.drop_nil, List.takeWhile_nil] at htk
    exact htok htk.symm
  | cons c rest =>
    cases tok with
    | nil => exact absurd rfl htok
    | cons a as =>
      simp only [searchPat, hpre, htk]
      simp [List.isEmpty]

theorem searchPat_first_match (lit tok suf : List Char)
    (htok : tok ≠ []) (hchars : ∀ c ∈ tok, tokenCharB c = true)
    (hsuf : suf.takeWhile tokenCharB = []) :
    ∀ pre : List Char,
    (∀ i, i < pre.length →
      lit.isPrefixOf ((pre ++ (lit ++ (tok ++ suf))).drop i) = false) →
    searchPat lit (pre ++ (lit ++ (tok ++ suf))) = some tok := by
  intro pre
  induction pre with
  | nil =>
    intro _
    rw [List.nil_append]
    refine searchPat_head_some lit tok _ ?_ ?_ htok
    · exact isPrefixOf_append_self lit (tok ++ suf)
    · rw [List.drop_left, List.takeWhile_append_of_pos hchars, hsuf,
        List.append_nil]
  | cons c pre' ih =>
    intro hfirst
    have h0 : lit.isPrefixOf (c :: (pre' ++ (lit ++ (tok ++ suf)))) = false := by
      have h := hfirst 0 (by simp)
      simpa using h
    rw [List.cons_append, searchPat.eq_def]
    simp only [h0]
    simp only [Bool.false_eq_true, if_false]
    refine ih (fun i hi => ?_)
    have h := hfirst (i + 1) (by simpa using Nat.succ_lt_succ hi)
    simpa using h

theorem searchPat_none_of_not_contains (lit : List Char) :
    ∀ s, containsSub lit s = false → searchPat lit s = none := by
  intro s
  induction s with
  | nil => intro _; rfl
  | cons c rest ih =>
    intro h
    rw [containsSub] at h
    rcases Bool.or_eq_false_iff.mp h with ⟨h1, h2⟩
    rw [searchPat.eq_def]
    simp only [h1, Bool.false_eq_true, if_false]
    exact ih h2

theorem containsSub_append_middle (pat : List Char) (hpat : pat ≠ []) :
    ∀ pre suf : List Char, containsSub pat (pre ++ (pat ++ suf)) = true := by
  intro pre suf
  induction pre with
  | nil =>
    rw [List.nil_append]
    cases pat with
    | nil => exact absurd rfl hpat
    | cons d ps =>
      rw [List.cons_append, containsSub]
      have hp : (d :: ps).isPrefixOf ((d :: ps) ++ suf) = true :=
        isPrefixOf_append_self _ _
      rw [List.cons_append] at hp
      simp [hp]
  | cons c pre' ih =>
    rw [List.cons_append, containsSub, ih]
    simp

theorem content_selection_fst_post (url : List Char)
    (v i p : List (List Char))
    (h1 : containsSub "/reel/".toList url = false)
    (h2 : containsSub "/reels/".toList url = false)
    (h3 : containsSub "/p/".toList url = true) :
    (content_selection url v i p).1 = "post" := by
  rw [content_selection, h1, h2, h3]
  rfl

theorem content_selection_fst_reel (url : List Char)
    (v i p : List (List Char))
    (h1 : containsSub "/reel/".toList url = true) :
    (content_selection url v i p).1 = "reel" := by
  rw [content_selection, h1]
  rfl

theorem download_branch_type_post (url : List Char)
    (hp : containsSub "/p/".toList url = true)
    (hr : containsSub "/reel/".toList url = false) :
    download_branch_type url = "post" := by
  rw [download_branch_type, hp, hr]
  rfl

theorem download_branch_type_reel (url : List Char)
    (hr : containsSub "/reel/".toList url = true) :
    download_branch_type url = "reel" := by
  rw [download_branch_type, hr]
  simp

theorem extract_type_eq (body url : List Char) :
    (extract_instagram_data body url).type =
      (content_selection url
        (clean_urls (runFamily video_url_patterns body))
        (clean_urls (runFamily display_url_patterns body))
        (clean_urls (runFamily profile_pic_patterns body))).1 := rfl

/-- Claim C7: for every URL containing `/p/<token>` (resp. `/reel/<token>`)
with `<token>` a nonempty run of characters from `[A-Za-z0-9_-]`, ending the
run (next character outside the charset), where the occurrence is the first
match of the ordered pattern set — classification returns kind `post`
(resp. `reel`) at both classification sites and the extracted shortcode is
exactly `<token>`, taken as the first match over the ordered pattern set
`{/p/(id), /reel/(id), /reels/(id), /tv/(id)}`. -/
theorem C7_shortcode_extraction_and_kind (pre tok suf : List Char)
    (htok : tok ≠ []) (hchars : ∀ c ∈ tok, tokenCharB c = true)
    (hsuf : suf.takeWhile tokenCharB = []) :
    ((∀ i, i < pre.length →
        "/p/".toList.isPrefixOf
          ((pre ++ ("/p/".toList ++ (tok ++ suf))).drop i) = false) →
      containsSub "/reel/".toList (pre ++ ("/p/".toList ++ (tok ++ suf))) = false →
      containsSub "/reels/".toList (pre ++ ("/p/".toList ++ (tok ++ suf))) = false →
      extract_shortcode_from_url (pre ++ ("/p/".toList ++ (tok ++ suf))) = some tok
      ∧ (∀ body, (extract_instagram_data body
          (pre ++ ("/p/".toList ++ (tok ++ suf)))).type = "post")
      ∧ download_branch_type (pre ++ ("/p/".toList ++ (tok ++ suf))) = "post")
    ∧ ((∀ i, i < pre.length →
        "/reel/".toList.isPrefixOf
          ((pre ++ ("/reel/".toList ++ (tok ++ suf))).drop i) = false) →
      containsSub "/p/".toList (pre ++ ("/reel/".toList ++ (tok ++ suf))) = false →
      extract_shortcode_from_url (pre ++ ("/reel/".toList ++ (tok ++ suf))) = some tok
      ∧ (∀ body, (extract_instagram_data body
          (pre ++ ("/reel/".toList ++ (tok ++ suf)))).type = "reel")
      ∧ download_branch_type (pre ++ ("/reel/".toList ++ (tok ++ suf))) = "reel") := by
  constructor
  · intro hfirst hre hres
    have hp : containsSub "/p/".toList (pre ++ ("/p/".toList ++ (tok ++ suf))) = true :=
      containsSub_append_middle "/p/".toList (by decide) pre (tok ++ suf)
    have hsearch : searchPat "/p/".toList (pre ++ ("/p/".toList ++ (tok ++ suf))) = some tok :=
      searchPat_first_match "/p/".toList tok suf htok hchars hsuf pre hfirst
    refine ⟨?_, ?_, ?_⟩
    · rw [extract_shortcode_from_url, shortcode_pats]
      simp only [firstPatMatch, hsearch]
    · intro body
      rw [extract_type_eq]
      exact content_selection_fst_post _ _ _ _ hre hres hp
    · exact download_branch_type_post _ hp hre
  · intro hfirst hnp
    have hr : containsSub "/reel/".toList (pre ++ ("/reel/".toList ++ (tok ++ suf))) = true :=
      containsSub_append_middle "/reel/".toList (by decide) pre (tok ++ suf)
    have hs1 : searchPat "/p/".toList (pre ++ ("/reel/".toList ++ (tok ++ suf))) = none :=
      searchPat_none_of_not_contains "/p/".toList _ hnp
    have hs2 : searchPat "/reel/".toList (pre ++ ("/reel/".toList ++ (tok ++ suf))) = some tok :=
      searchPat_first_match "/reel/".toList tok suf htok hchars hsuf pre hfirst
    refine ⟨?_, ?_, ?_⟩
    · rw [extract_shortcode_from_url, shortcode_pats]
      simp only [firstPatMatch, hs1, hs2]
    · intro body
      rw [extract_type_eq]
      exact content_selection_fst_reel _ _ _ _ hr
    · exact download_branch_type_reel _ hr

/-- Witness for C7: `https://www.instagram.com/p/ABC123/` classifies as a
post with shortcode `ABC123`, and `https://www.instagram.com/reel/XYZ987`
classifies as a reel with shortcode `XYZ987`. -/
theorem C7_shortcode_extraction_and_kind_witness :
    (extract_shortcode_from_url "https://www.instagram.com/p/ABC123/".toList =
        some "ABC123".toList
      ∧ download_branch_type "https://www.instagram.com/p/ABC123/".toList =
        "post")
    ∧ (extract_shortcode_from_url
          "https://www.instagram.com/reel/XYZ987".toList =
        some "XYZ987".toList
      ∧ download_branch_type
          "https://www.instagram.com/reel/XYZ987".toList = "reel") := by
  constructor
  · have h := (C7_shortcode_extraction_and_kind
        "https://www.instagram.com".toList "ABC123".toList "/".toList
        (by decide) (by decide) (by decide)).1
        (by decide) (by decide) (by decide)
    exact ⟨h.1, h.2.2⟩
  · have h := (C7_shortcode_extraction_and_kind
        "https://www.instagram.com".toList "XYZ987".toList [] (by decide)
        (by decide) (by decide)).2
        (by decide) (by decide)
    exact ⟨h.1, h.2.2⟩
